import Mathlib

/-!
# Verification of the `chain-impl-mockchain` block header subsystem

Shallow embedding of `src/chain-impl-mockchain/src/block/header.rs`:
the `Header`/`Common`/`Proof` data model, the size-prefixed binary codec
(serialization with a 2-byte back-patched size hole, deserialization with
dispatch on the decoded block version), proof verification, and the
identity hash. Bytes are modelled as `Nat` values (well-formedness
predicates record the `< 256` range and the fixed widths that the Rust
types enforce statically). Fallible deserialization returns `Except`;
the `unimplemented!` panics of the Rust code are modelled as dedicated
error values, since at this layer both are fatal to the decode call.
-/

namespace HeaderSpec

/-- `BlockDate` from `crate::date`: an `(epoch, slot_id)` pair of `u32`. -/
structure BlockDate where
  epoch : Nat
  slot_id : Nat
  deriving DecidableEq, Repr

/-- The three reserved `BlockVersion` values (`u16` enumerants). -/
def BLOCK_VERSION_CONSENSUS_NONE : Nat := 0
def BLOCK_VERSION_CONSENSUS_BFT : Nat := 1
def BLOCK_VERSION_CONSENSUS_GENESIS_PRAOS : Nat := 2

/-- Digest width of `Hash` (Blake2b256): the deserializer reads `[0; 32]`. -/
def HASH_SIZE : Nat := 32

/-- Modelled from the spec: `leader_id` wraps a public key with a fixed
canonical encoding (the `chain_crypto` collaborator is not under `src/`);
its serialized width, fixed per §6 of the spec. -/
def LEADER_ID_SIZE : Nat := 32

/-- Modelled from the spec: fixed canonical encoding width of a
`Signature` (external collaborator, per §6 of the spec). -/
def SIGNATURE_SIZE : Nat := 64

/-- `vrf::PUBLIC_SIZE` — modelled from the spec: fixed width of a VRF
public key encoding (external collaborator, per §6 of the spec). -/
def VRF_PUBLIC_SIZE : Nat := 32

/-- `vrf::PROOF_SIZE` — modelled from the spec: fixed width of a VRF
proof encoding (external collaborator, per §6 of the spec). -/
def VRF_PROOF_SIZE : Nat := 96

/-- `Common`: the version-independent prefix of a header. Hashes are the
raw digest byte lists (`Hash::as_ref`). -/
structure Common where
  block_version : Nat
  block_date : BlockDate
  block_content_size : Nat
  block_content_hash : List Nat
  block_parent_hash : List Nat
  deriving DecidableEq, Repr

/-- `BftProof { leader_id, signature }`; each field is held as its
canonical encoding bytes. -/
structure BftProof where
  leader_id : List Nat
  signature : List Nat
  deriving DecidableEq, Repr

/-- `GenesisPraosProof { vrf_public_key, vrf_proof, kes_public_key, kes_proof }`. -/
structure GenesisPraosProof where
  vrf_public_key : List Nat
  vrf_proof : List Nat
  kes_public_key : List Nat
  kes_proof : List Nat
  deriving DecidableEq, Repr

/-- The `Proof` tagged union. -/
inductive Proof where
  | none
  | bft (p : BftProof)
  | genesisPraos (p : GenesisPraosProof)
  deriving DecidableEq, Repr

/-- `Header { common, proof }`. -/
structure Header where
  common : Common
  proof : Proof
  deriving DecidableEq, Repr

/-- Errors of the decode path. `unimplementedGenesisPraos` and
`unsupportedBlockVersion` model the two `unimplemented!` aborts of the
Rust deserializer; `truncated` models an `UnexpectedEof` from the byte
source. -/
inductive CodecError where
  | truncated
  | unimplementedGenesisPraos
  | unsupportedBlockVersion (v : Nat)
  deriving DecidableEq, Repr

/-! ## Codec primitives (`chain_core::packer::Codec`, big-endian) -/

/-- Big-endian bytes of a `u16` (`put_u16`). -/
def u16be (v : Nat) : List Nat := [v / 2 ^ 8 % 256, v % 256]

/-- Big-endian bytes of a `u32` (`put_u32`). -/
def u32be (v : Nat) : List Nat :=
  [v / 2 ^ 24 % 256, v / 2 ^ 16 % 256, v / 2 ^ 8 % 256, v % 256]

/-- Big-endian value of a byte list. -/
def beVal (bytes : List Nat) : Nat := bytes.foldl (fun acc b => acc * 256 + b) 0

/-- Writer primitive: append one encoded `u16`. -/
def putU16 (v : Nat) (acc : List Nat) : List Nat := acc ++ u16be v

/-- Writer primitive: append one encoded `u32`. -/
def putU32 (v : Nat) (acc : List Nat) : List Nat := acc ++ u32be v

/-- Writer primitive: `write_all` of raw bytes. -/
def writeAll (bytes : List Nat) (acc : List Nat) : List Nat := acc ++ bytes

/-- Reader primitive: take exactly `n` bytes, or fail (`read_exact`). -/
def readBytes (n : Nat) (input : List Nat) : Except CodecError (List Nat × List Nat) :=
  if n ≤ input.length then .ok (input.take n, input.drop n) else .error .truncated

/-- `get_u16`: read 2 bytes, big-endian. -/
def getU16 (input : List Nat) : Except CodecError (Nat × List Nat) :=
  match readBytes 2 input with
  | .ok (b, rest) => .ok (beVal b, rest)
  | .error e => .error e

/-- `get_u32`: read 4 bytes, big-endian. -/
def getU32 (input : List Nat) : Except CodecError (Nat × List Nat) :=
  match readBytes 4 input with
  | .ok (b, rest) => .ok (beVal b, rest)
  | .error e => .error e

/-! ## Serialization (`impl property::Serialize`) -/

/-- `impl property::Serialize for Common`: `put_u16 block_version`,
`put_u32 block_content_size`, `put_u32 epoch`, `put_u32 slot_id`, then
the raw bytes of the two hashes, appended to the writer `acc`. -/
def commonSerialize (c : Common) (acc : List Nat) : List Nat :=
  writeAll c.block_parent_hash
    (writeAll c.block_content_hash
      (putU32 c.block_date.slot_id
        (putU32 c.block_date.epoch
          (putU32 c.block_content_size
            (putU16 c.block_version acc)))))

/-- The proof section of `impl property::Serialize for Header`:
nothing for `None`; `leader_id` then `signature` for `Bft`; VRF public
key bytes, VRF proof bytes, `kes_public_key`, `kes_proof` for
`GenesisPraos`. -/
def proofSerialize : Proof → List Nat → List Nat
  | Proof.none, acc => acc
  | Proof.bft p, acc => writeAll p.signature (writeAll p.leader_id acc)
  | Proof.genesisPraos p, acc =>
      writeAll p.kes_proof
        (writeAll p.kes_public_key
          (writeAll p.vrf_proof
            (writeAll p.vrf_public_key acc)))

/-- `impl property::Serialize for Header`: a 2-byte hole is reserved,
`Common` and the proof section are written, then the hole is filled with
`buffered_len() as u16 - 2` (the `as u16` cast truncates modulo 2^16 and
the subtraction wraps in `u16`; `buffered_len` counts the 2 hole bytes). -/
def headerToBytes (h : Header) : List Nat :=
  let body := proofSerialize h.proof (commonSerialize h.common [])
  u16be (((2 + body.length) % 2 ^ 16 + (2 ^ 16 - 2)) % 2 ^ 16) ++ body

/-! ## Deserialization (`impl property::Deserialize for Header`) -/

/-- The decode steps after the 2-byte size prefix has been consumed:
`Common` field by field, then proof dispatch on the decoded
`block_version` (`0 → None`, `1 → Bft`, `2 → unimplemented!`,
otherwise `unimplemented!("block_version: ...")`). -/
def headerBodyFromBytes (input : List Nat) : Except CodecError Header := do
  let (block_version, r1) ← getU16 input
  let (block_content_size, r2) ← getU32 r1
  let (epoch, r3) ← getU32 r2
  let (slot_id, r4) ← getU32 r3
  let (block_content_hash, r5) ← readBytes HASH_SIZE r4
  let (block_parent_hash, r6) ← readBytes HASH_SIZE r5
  let proof ←
    if block_version = BLOCK_VERSION_CONSENSUS_NONE then
      Except.ok Proof.none
    else if block_version = BLOCK_VERSION_CONSENSUS_BFT then do
      let (leader_id, s1) ← readBytes LEADER_ID_SIZE r6
      let (signature, _s2) ← readBytes SIGNATURE_SIZE s1
      Except.ok (Proof.bft ⟨leader_id, signature⟩)
    else if block_version = BLOCK_VERSION_CONSENSUS_GENESIS_PRAOS then
      Except.error CodecError.unimplementedGenesisPraos
    else
      Except.error (CodecError.unsupportedBlockVersion block_version)
  Except.ok
    { common :=
        { block_version
          block_date := ⟨epoch, slot_id⟩
          block_content_size
          block_content_hash
          block_parent_hash }
      proof }

/-- `Header::deserialize`: read and discard the 2-byte size
(`let _header_size = codec.get_u16()?`), then decode the rest. -/
def headerFromBytes (input : List Nat) : Except CodecError Header := do
  let (_header_size, r1) ← getU16 input
  headerBodyFromBytes r1

/-! ## Verification and identity -/

/-- Modelled from the spec: `PublicKey::serialize_and_verify` of the
`chain_crypto` collaborator (not under `src/`) re-serializes `Common`
exactly as the codec does and checks the signature over those bytes
under the public key; the primitive check itself is a parameter `V`. -/
def serialize_and_verify (V : List Nat → List Nat → List Nat → Bool)
    (pk : List Nat) (c : Common) (sig : List Nat) : Bool :=
  V pk (commonSerialize c []) sig

/-- `Header::verify_proof`: `None → true`; `Bft` checks the signature
over the serialized `Common` under `leader_id`; `GenesisPraos` performs
the same check with `kes_public_key`/`kes_proof` (no VRF check). -/
def Header.verify_proof (V : List Nat → List Nat → List Nat → Bool)
    (h : Header) : Bool :=
  match h.proof with
  | Proof.none => true
  | Proof.bft p => serialize_and_verify V p.leader_id h.common p.signature
  | Proof.genesisPraos p => serialize_and_verify V p.kes_public_key h.common p.kes_proof

/-- `Header::hash`: serialize the header, drop the first 2 bytes (the
size), hash the remainder. The digest primitive is a parameter. -/
def Header.hash (hashFn : List Nat → List Nat) (h : Header) : List Nat :=
  hashFn ((headerToBytes h).drop 2)

/-- `property::Header::id` forwards to `Header::hash`. -/
def Header.id (hashFn : List Nat → List Nat) (h : Header) : List Nat :=
  Header.hash hashFn h

/-! ## Well-formedness (the constraints the Rust types enforce statically) -/

/-- Every entry is a byte. -/
def bytesWF (l : List Nat) : Prop := ∀ b ∈ l, b < 256

instance (l : List Nat) : Decidable (bytesWF l) := by
  unfold bytesWF; infer_instance

/-- `Common` as representable in Rust: `u16`/`u32` ranges and 32-byte digests. -/
def Common.WF (c : Common) : Prop :=
  c.block_version < 2 ^ 16 ∧ c.block_content_size < 2 ^ 32 ∧
  c.block_date.epoch < 2 ^ 32 ∧ c.block_date.slot_id < 2 ^ 32 ∧
  c.block_content_hash.length = HASH_SIZE ∧ bytesWF c.block_content_hash ∧
  c.block_parent_hash.length = HASH_SIZE ∧ bytesWF c.block_parent_hash

/-- Proof payloads as representable in Rust: fixed-width byte encodings. -/
def Proof.WF : Proof → Prop
  | Proof.none => True
  | Proof.bft p =>
      p.leader_id.length = LEADER_ID_SIZE ∧ bytesWF p.leader_id ∧
      p.signature.length = SIGNATURE_SIZE ∧ bytesWF p.signature
  | Proof.genesisPraos p =>
      p.vrf_public_key.length = VRF_PUBLIC_SIZE ∧ bytesWF p.vrf_public_key ∧
      p.vrf_proof.length = VRF_PROOF_SIZE ∧ bytesWF p.vrf_proof ∧
      p.kes_public_key.length = LEADER_ID_SIZE ∧ bytesWF p.kes_public_key ∧
      p.kes_proof.length = SIGNATURE_SIZE ∧ bytesWF p.kes_proof

/-- A header as representable in Rust. -/
def Header.WF (h : Header) : Prop := h.common.WF ∧ h.proof.WF

instance (c : Common) : Decidable c.WF := by
  unfold Common.WF; infer_instance

instance (p : Proof) : Decidable p.WF := by
  unfold Proof.WF; cases p <;> infer_instance

instance (h : Header) : Decidable h.WF := by
  unfold Header.WF; infer_instance

/-- The §3 invariant: the `Proof` variant matches `block_version`. -/
def proofMatchesVersion (h : Header) : Prop :=
  match h.proof with
  | Proof.none => h.common.block_version = BLOCK_VERSION_CONSENSUS_NONE
  | Proof.bft _ => h.common.block_version = BLOCK_VERSION_CONSENSUS_BFT
  | Proof.genesisPraos _ => h.common.block_version = BLOCK_VERSION_CONSENSUS_GENESIS_PRAOS

instance (h : Header) : Decidable (proofMatchesVersion h) := by
  unfold proofMatchesVersion; cases h.proof <;> infer_instance

instance {ε α : Type} [DecidableEq ε] [DecidableEq α] : DecidableEq (Except ε α)
  | .ok a, .ok b =>
      if h : a = b then isTrue (by rw [h])
      else isFalse (by intro hc; injection hc; contradiction)
  | .ok _, .error _ => isFalse (by intro hc; cases hc)
  | .error _, .ok _ => isFalse (by intro hc; cases hc)
  | .error e, .error f =>
      if h : e = f then isTrue (by rw [h])
      else isFalse (by intro hc; injection hc; contradiction)

/-! ## Codec lemmas -/

/-- Flat byte list of a serialized `Common` (normal form of `commonSerialize`). -/
def commonBytes (c : Common) : List Nat :=
  u16be c.block_version ++ u32be c.block_content_size ++
  u32be c.block_date.epoch ++ u32be c.block_date.slot_id ++
  c.block_content_hash ++ c.block_parent_hash

/-- Flat byte list of the proof section (normal form of `proofSerialize`). -/
def proofBytes : Proof → List Nat
  | Proof.none => []
  | Proof.bft p => p.leader_id ++ p.signature
  | Proof.genesisPraos p =>
      p.vrf_public_key ++ p.vrf_proof ++ p.kes_public_key ++ p.kes_proof

theorem commonSerialize_eq (c : Common) (acc : List Nat) :
    commonSerialize c acc = acc ++ commonBytes c := by
  simp [commonSerialize, commonBytes, putU16, putU32, writeAll]

theorem proofSerialize_eq (p : Proof) (acc : List Nat) :
    proofSerialize p acc = acc ++ proofBytes p := by
  cases p <;> simp [proofSerialize, proofBytes, writeAll]

theorem u16be_length (v : Nat) : (u16be v).length = 2 := rfl

theorem u32be_length (v : Nat) : (u32be v).length = 4 := rfl

theorem beVal_u16be (v : Nat) (hv : v < 2 ^ 16) : beVal (u16be v) = v := by
  simp only [beVal, u16be, List.foldl]
  omega

theorem beVal_u32be (v : Nat) (hv : v < 2 ^ 32) : beVal (u32be v) = v := by
  simp only [beVal, u32be, List.foldl]
  omega

theorem readBytes_exact (n : Nat) (l rest : List Nat) (hl : l.length = n) :
    readBytes n (l ++ rest) = .ok (l, rest) := by
  subst hl
  simp [readBytes, List.take_left, List.drop_left]

theorem getU16_exact (v : Nat) (rest : List Nat) (hv : v < 2 ^ 16) :
    getU16 (u16be v ++ rest) = .ok (v, rest) := by
  rw [getU16, readBytes_exact 2 (u16be v) rest (u16be_length v)]
  simp [beVal_u16be v hv]

theorem getU32_exact (v : Nat) (rest : List Nat) (hv : v < 2 ^ 32) :
    getU32 (u32be v ++ rest) = .ok (v, rest) := by
  rw [getU32, readBytes_exact 4 (u32be v) rest (u32be_length v)]
  simp [beVal_u32be v hv]

/-- The wrapping size-field arithmetic collapses to the body length mod 2^16. -/
theorem sizeField_eq (n : Nat) :
    ((2 + n) % 2 ^ 16 + (2 ^ 16 - 2)) % 2 ^ 16 = n % 2 ^ 16 := by
  omega

theorem headerToBytes_eq (h : Header) :
    headerToBytes h =
      u16be ((commonBytes h.common ++ proofBytes h.proof).length % 2 ^ 16) ++
        (commonBytes h.common ++ proofBytes h.proof) := by
  rw [headerToBytes]
  simp only [proofSerialize_eq, commonSerialize_eq, List.nil_append, List.append_assoc,
    sizeField_eq]

theorem readBytes_of_le (n : Nat) (input : List Nat) (hin : n ≤ input.length) :
    readBytes n input = .ok (input.take n, input.drop n) := by
  simp [readBytes, hin]

theorem readBytes_all (n : Nat) (l : List Nat) (hl : l.length = n) :
    readBytes n l = .ok (l, []) := by
  subst hl
  simp [readBytes]

theorem getU16_of_le (input : List Nat) (hin : 2 ≤ input.length) :
    getU16 input = .ok (beVal (input.take 2), input.drop 2) := by
  simp [getU16, readBytes, hin]

theorem getU32_of_le (input : List Nat) (hin : 4 ≤ input.length) :
    getU32 input = .ok (beVal (input.take 4), input.drop 4) := by
  simp [getU32, readBytes, hin]

/-- After the size prefix is consumed, decoding continues on the rest. -/
theorem headerFromBytes_eq (input : List Nat) (hin : 2 ≤ input.length) :
    headerFromBytes input = headerBodyFromBytes (input.drop 2) := by
  simp [headerFromBytes, getU16, readBytes, hin, Bind.bind, Except.bind]

/-- An input too short for the size prefix fails as truncated. -/
theorem headerFromBytes_short (input : List Nat) (hin : input.length < 2) :
    headerFromBytes input = .error .truncated := by
  have hn : ¬ 2 ≤ input.length := by omega
  simp [headerFromBytes, getU16, readBytes, hn, Bind.bind, Except.bind]

theorem commonBytes_length (c : Common) (hc : c.WF) :
    (commonBytes c).length = 78 := by
  obtain ⟨-, -, -, -, hch, -, hph, -⟩ := hc
  simp [commonBytes, u16be, u32be, hch, hph, HASH_SIZE]

theorem proofBytes_length_le (p : Proof) (hp : p.WF) :
    (proofBytes p).length ≤ 224 := by
  cases p with
  | none => simp [proofBytes]
  | bft pf =>
      obtain ⟨hl, -, hs, -⟩ := hp
      simp [proofBytes, hl, hs, LEADER_ID_SIZE, SIGNATURE_SIZE]
  | genesisPraos pf =>
      obtain ⟨h1, -, h2, -, h3, -, h4, -⟩ := hp
      simp [proofBytes, h1, h2, h3, h4,
        VRF_PUBLIC_SIZE, VRF_PROOF_SIZE, LEADER_ID_SIZE, SIGNATURE_SIZE]

/-! ## Concrete headers used by witnesses and counterexamples -/

/-- A well-formed `Proof::None` header with matching version `NONE`. -/
def exampleHeaderNone : Header :=
  ⟨⟨0, ⟨0, 0⟩, 0, List.replicate 32 0, List.replicate 32 0⟩, Proof.none⟩

/-- A well-formed BFT header with matching version `BFT`. -/
def exampleHeaderBft : Header :=
  ⟨⟨1, ⟨3, 4⟩, 5, List.replicate 32 7, List.replicate 32 9⟩,
   Proof.bft ⟨List.replicate 32 1, List.replicate 64 2⟩⟩

/-- A well-formed GenesisPraos header with matching version `GENESIS_PRAOS`. -/
def exampleHeaderGp : Header :=
  ⟨⟨2, ⟨3, 4⟩, 5, List.replicate 32 7, List.replicate 32 9⟩,
   Proof.genesisPraos
     ⟨List.replicate 32 4, List.replicate 96 5, List.replicate 32 1, List.replicate 64 2⟩⟩

/-- A header whose version (`NONE`) disagrees with its proof variant (`Bft`). -/
def exampleHeaderMismatch : Header :=
  ⟨⟨0, ⟨0, 0⟩, 0, List.replicate 32 0, List.replicate 32 0⟩,
   Proof.bft ⟨List.replicate 32 1, List.replicate 64 2⟩⟩

/-- Core round-trip: decoding the post-prefix bytes of a well-formed
header whose proof matches its version reconstructs the header, for the
`NONE` and `BFT` versions (the `GENESIS_PRAOS` decode path aborts). -/
theorem headerBody_roundtrip (h : Header) (hwf : h.WF) (hm : proofMatchesVersion h)
    (hv : h.common.block_version ≠ BLOCK_VERSION_CONSENSUS_GENESIS_PRAOS) :
    headerBodyFromBytes (commonBytes h.common ++ proofBytes h.proof) = .ok h := by
  obtain ⟨⟨v, ⟨ep, sl⟩, sz, ch, ph⟩, p⟩ := h
  obtain ⟨⟨hv16, hsz, hep, hsl, hch, hchw, hph, hphw⟩, hpwf⟩ := hwf
  dsimp only at hv16 hsz hep hsl hch hchw hph hphw hv hpwf
  cases p with
  | none =>
      simp only [proofMatchesVersion, BLOCK_VERSION_CONSENSUS_NONE] at hm
      subst hm
      simp only [commonBytes, proofBytes, List.append_nil, List.append_assoc]
      simp (disch := omega) only [headerBodyFromBytes, Bind.bind, Except.bind,
        getU16_exact, getU32_exact, readBytes_exact, readBytes_all,
        BLOCK_VERSION_CONSENSUS_NONE, BLOCK_VERSION_CONSENSUS_BFT,
        BLOCK_VERSION_CONSENSUS_GENESIS_PRAOS]
      simp
  | bft pf =>
      obtain ⟨lid, sig⟩ := pf
      obtain ⟨hlid, hlidw, hsig, hsigw⟩ := hpwf
      dsimp only at hlid hsig
      simp only [proofMatchesVersion, BLOCK_VERSION_CONSENSUS_BFT] at hm
      subst hm
      simp only [commonBytes, proofBytes, List.append_assoc]
      simp (disch := omega) only [headerBodyFromBytes, Bind.bind, Except.bind,
        getU16_exact, getU32_exact, readBytes_exact, readBytes_all,
        BLOCK_VERSION_CONSENSUS_NONE, BLOCK_VERSION_CONSENSUS_BFT,
        BLOCK_VERSION_CONSENSUS_GENESIS_PRAOS]
      simp
  | genesisPraos pf =>
      simp only [proofMatchesVersion, BLOCK_VERSION_CONSENSUS_GENESIS_PRAOS] at hm
      exact absurd hm hv

/-! ## Claims -/

/-- C1 (amended): for every well-formed `Header` whose proof variant
matches its `block_version` and whose version is `NONE` or `BFT`,
deserializing the serialized bytes yields the header back. (The claim's
third reserved version `GENESIS_PRAOS` is excluded: the deserializer's
`GENESIS_PRAOS` arm is `unimplemented!`, so `decode(encode(h))` aborts
rather than yielding `h` — see the counterexample.) -/
theorem header_decode_encode (h : Header) (hwf : h.WF) (hm : proofMatchesVersion h)
    (hv : h.common.block_version ≠ BLOCK_VERSION_CONSENSUS_GENESIS_PRAOS) :
    headerFromBytes (headerToBytes h) = .ok h := by
  rw [headerToBytes_eq, headerFromBytes_eq _ (by simp [u16be]),
    List.drop_left' (u16be_length _)]
  exact headerBody_roundtrip h hwf hm hv

/-- Witness for C1: the round-trip at a concrete BFT header. -/
theorem header_decode_encode_witness :
    headerFromBytes (headerToBytes exampleHeaderBft) = .ok exampleHeaderBft :=
  header_decode_encode exampleHeaderBft (by decide) (by decide) (by decide)

set_option maxRecDepth 8192 in
/-- C1 counterexample: a constructible, well-formed `GENESIS_PRAOS`
header with matching proof variant does not round-trip — the decoder
aborts in the `GENESIS_PRAOS` arm (`unimplemented!`), so
`decode(encode(h))` is an error, not `h`. -/
theorem header_decode_encode_genesisPraos_fails :
    Header.WF exampleHeaderGp ∧ proofMatchesVersion exampleHeaderGp ∧
    headerFromBytes (headerToBytes exampleHeaderGp) =
      .error CodecError.unimplementedGenesisPraos :=
  ⟨by decide, by decide, by decide⟩

/-- C2: the identity hash of a header is the digest of its serialized
bytes with the first 2 bytes (the size field) removed; those remaining
bytes are exactly the serialized `Common` followed by the proof section. -/
theorem header_id_hashes_bytes_after_size (hashFn : List Nat → List Nat) (h : Header) :
    Header.id hashFn h = hashFn ((headerToBytes h).drop 2) ∧
    (headerToBytes h).drop 2 = commonBytes h.common ++ proofBytes h.proof := by
  refine ⟨rfl, ?_⟩
  rw [headerToBytes_eq]
  exact List.drop_left' (u16be_length _)

/-- C3: for every well-formed header, the first 2 bytes of the
serialization, read big-endian, equal the total length minus 2. -/
theorem header_size_field_correct (h : Header) (hwf : h.WF) :
    beVal ((headerToBytes h).take 2) = (headerToBytes h).length - 2 := by
  have h1 := commonBytes_length h.common hwf.1
  have h2 := proofBytes_length_le h.proof hwf.2
  have hblen : (commonBytes h.common ++ proofBytes h.proof).length < 2 ^ 16 := by
    rw [List.length_append, h1]; omega
  rw [headerToBytes_eq, List.take_left' (u16be_length _),
    beVal_u16be _ (Nat.mod_lt _ (by norm_num)), Nat.mod_eq_of_lt hblen]
  simp [u16be]

/-- Witness for C3: the size field of a concrete BFT header. -/
theorem header_size_field_correct_witness :
    beVal ((headerToBytes exampleHeaderBft).take 2) =
      (headerToBytes exampleHeaderBft).length - 2 :=
  header_size_field_correct exampleHeaderBft (by decide)

/-- Helper for C4: once the size prefix is stripped, if the remaining
input holds a full `Common` (78 bytes) and its leading 2 bytes decode to
a version outside the three reserved values, decoding fails with
`unsupportedBlockVersion`. -/
theorem headerBodyFromBytes_unsupported (r : List Nat) (v : Nat)
    (hlen : 78 ≤ r.length) (hveq : v = beVal (r.take 2))
    (h0 : v ≠ 0) (h1 : v ≠ 1) (h2 : v ≠ 2) :
    headerBodyFromBytes r = .error (CodecError.unsupportedBlockVersion v) := by
  have e1 : getU16 r = .ok (v, r.drop 2) := by
    rw [getU16_of_le r (by omega), ← hveq]
  have e2 : getU32 (r.drop 2) =
      .ok (beVal ((r.drop 2).take 4), (r.drop 2).drop 4) :=
    getU32_of_le _ (by rw [List.length_drop]; omega)
  have e3 : getU32 ((r.drop 2).drop 4) =
      .ok (beVal (((r.drop 2).drop 4).take 4), ((r.drop 2).drop 4).drop 4) :=
    getU32_of_le _ (by rw [List.length_drop, List.length_drop]; omega)
  have e4 : getU32 (((r.drop 2).drop 4).drop 4) =
      .ok (beVal ((((r.drop 2).drop 4).drop 4).take 4),
           (((r.drop 2).drop 4).drop 4).drop 4) :=
    getU32_of_le _ (by rw [List.length_drop, List.length_drop, List.length_drop]; omega)
  have e5 : readBytes HASH_SIZE ((((r.drop 2).drop 4).drop 4).drop 4) =
      .ok (((((r.drop 2).drop 4).drop 4).drop 4).take HASH_SIZE,
           ((((r.drop 2).drop 4).drop 4).drop 4).drop HASH_SIZE) :=
    readBytes_of_le _ _ (by
      rw [List.length_drop, List.length_drop, List.length_drop, List.length_drop]
      rw [HASH_SIZE]; omega)
  have e6 : readBytes HASH_SIZE (((((r.drop 2).drop 4).drop 4).drop 4).drop HASH_SIZE) =
      .ok ((((((r.drop 2).drop 4).drop 4).drop 4).drop HASH_SIZE).take HASH_SIZE,
           (((((r.drop 2).drop 4).drop 4).drop 4).drop HASH_SIZE).drop HASH_SIZE) :=
    readBytes_of_le _ _ (by
      rw [List.length_drop, List.length_drop, List.length_drop, List.length_drop,
        List.length_drop]
      rw [HASH_SIZE]; omega)
  simp only [headerBodyFromBytes, e1, e2, e3, e4, e5, e6, Bind.bind, Except.bind]
  simp [h0, h1, h2, BLOCK_VERSION_CONSENSUS_NONE, BLOCK_VERSION_CONSENSUS_BFT,
    BLOCK_VERSION_CONSENSUS_GENESIS_PRAOS]

/-- C4 (amended): for every input of at least 80 bytes (size prefix plus
a full `Common`) whose version field — bytes 2 and 3, big-endian — is
outside `{0, 1, 2}`, decoding fails with `unsupportedBlockVersion`
carrying that version, never a silently defaulted header. (The original
claim over *every* input with a bad version field fails: the version
dispatch runs only after the full `Common` is read, so a short input
with a bad version fails with a truncation error instead — see the
counterexample.) -/
theorem unsupported_version_rejected (input : List Nat) (v : Nat)
    (hlen : 80 ≤ input.length) (hveq : v = beVal ((input.drop 2).take 2))
    (h0 : v ≠ BLOCK_VERSION_CONSENSUS_NONE)
    (h1 : v ≠ BLOCK_VERSION_CONSENSUS_BFT)
    (h2 : v ≠ BLOCK_VERSION_CONSENSUS_GENESIS_PRAOS) :
    headerFromBytes input = .error (CodecError.unsupportedBlockVersion v) := by
  rw [headerFromBytes_eq input (by omega)]
  exact headerBodyFromBytes_unsupported _ v (by rw [List.length_drop]; omega) hveq h0 h1 h2

/-- Witness for C4 (amended): an 80-byte input with version field 7. -/
theorem unsupported_version_rejected_witness :
    headerFromBytes (0 :: 0 :: 0 :: 7 :: List.replicate 76 0) =
      .error (CodecError.unsupportedBlockVersion 7) :=
  unsupported_version_rejected _ 7 (by decide) (by decide) (by decide) (by decide)
    (by decide)

/-- C4 counterexample: the 4-byte input `[0, 0, 0, 3]` has version field
3 (outside `{0, 1, 2}`), yet decoding fails with a truncation error —
not with `unsupportedBlockVersion` — because the version dispatch only
happens after the whole `Common` has been read. -/
theorem unsupported_version_short_input_truncated :
    beVal ((([0, 0, 0, 3] : List Nat).drop 2).take 2) = 3 ∧
    headerFromBytes [0, 0, 0, 3] = .error CodecError.truncated ∧
    ∀ w, CodecError.truncated ≠ CodecError.unsupportedBlockVersion w :=
  ⟨by decide, by decide, fun _ h => CodecError.noConfusion h⟩

/-- Helper for C5: a successfully decoded body always carries a proof
variant matching its decoded version. -/
theorem headerBody_ok_matches (r : List Nat) (h : Header)
    (hd : headerBodyFromBytes r = .ok h) : proofMatchesVersion h := by
  unfold headerBodyFromBytes at hd
  simp only [Bind.bind, Except.bind] at hd
  repeat' split at hd
  all_goals first
    | exact Except.noConfusion hd
    | (injection hd with hd
       subst hd
       simp_all [proofMatchesVersion, BLOCK_VERSION_CONSENSUS_NONE,
         BLOCK_VERSION_CONSENSUS_BFT, BLOCK_VERSION_CONSENSUS_GENESIS_PRAOS])

/-- C5 (amended): decoding never produces a header whose proof variant
disagrees with its `block_version` — every successfully decoded header
satisfies the version/variant invariant. Mismatched headers are,
however, representable values, and serialization (which dispatches on
the proof variant alone, never consulting `block_version`) accepts them
silently — the claim's "statically unrepresentable or explicitly
rejected by the codec" fails on the encoding side, as the
counterexample shows; the spec itself assigns that responsibility to
the caller. -/
theorem decode_preserves_version_proof_invariant (input : List Nat) (h : Header)
    (hd : headerFromBytes input = .ok h) : proofMatchesVersion h := by
  by_cases hc : 2 ≤ input.length
  · rw [headerFromBytes_eq input hc] at hd
    exact headerBody_ok_matches _ _ hd
  · rw [headerFromBytes_short input (by omega)] at hd
    exact Except.noConfusion hd

set_option maxRecDepth 8192 in
/-- Witness for C5 (amended): the invariant for the header decoded from
a concrete byte string. -/
theorem decode_preserves_version_proof_invariant_witness :
    proofMatchesVersion exampleHeaderBft :=
  decode_preserves_version_proof_invariant (headerToBytes exampleHeaderBft)
    exampleHeaderBft (by decide)

set_option maxRecDepth 8192 in
/-- C5 counterexample: the mismatched header `(block_version = NONE,
Proof::Bft)` is representable and is *silently accepted* by both codec
directions: serializing it succeeds (producing `NONE` in the version
field followed by BFT proof bytes), and deserializing those bytes
succeeds as well — returning a *different* header (the BFT proof bytes
are never read back). Nothing is rejected, so the claim as stated is
false. -/
theorem version_proof_mismatch_silently_accepted :
    ¬ proofMatchesVersion exampleHeaderMismatch ∧
    headerFromBytes (headerToBytes exampleHeaderMismatch) = .ok exampleHeaderNone ∧
    exampleHeaderNone ≠ exampleHeaderMismatch :=
  ⟨by decide, by decide, by decide⟩

/-- C6: for a `GenesisPraos` header, `verify_proof` is exactly the
signature check of `kes_proof` over the re-serialized `Common` under
`kes_public_key` — the same check the BFT case performs with its
`leader_id`/`signature` — and the VRF fields do not affect the result:
replacing them with arbitrary values leaves `verify_proof` unchanged. -/
theorem genesisPraos_verify_is_kes_check
    (V : List Nat → List Nat → List Nat → Bool)
    (c : Common) (gp : GenesisPraosProof) (vpk vpf : List Nat) :
    Header.verify_proof V ⟨c, Proof.genesisPraos gp⟩ =
        serialize_and_verify V gp.kes_public_key c gp.kes_proof ∧
    Header.verify_proof V ⟨c, Proof.genesisPraos gp⟩ =
        Header.verify_proof V ⟨c, Proof.bft ⟨gp.kes_public_key, gp.kes_proof⟩⟩ ∧
    Header.verify_proof V
        ⟨c, Proof.genesisPraos ⟨vpk, vpf, gp.kes_public_key, gp.kes_proof⟩⟩ =
      Header.verify_proof V ⟨c, Proof.genesisPraos gp⟩ :=
  ⟨rfl, rfl, rfl⟩

/-- C9: a header whose proof is `Proof::None` verifies unconditionally —
`verify_proof` is `true` with no restriction on the other fields, in
particular even when `block_version` is not `NONE`. -/
theorem proof_none_verify_true (V : List Nat → List Nat → List Nat → Bool)
    (h : Header) (hp : h.proof = Proof.none) : Header.verify_proof V h = true := by
  cases h
  subst hp
  rfl

/-- Witness for C9: a `Proof::None` header with `block_version = BFT`
(violating the version/variant invariant) and an
always-false signature checker still verifies. -/
theorem proof_none_verify_true_witness :
    Header.verify_proof (fun _ _ _ => false)
      ⟨⟨1, ⟨0, 0⟩, 0, List.replicate 32 0, List.replicate 32 0⟩, Proof.none⟩ = true :=
  proof_none_verify_true _ _ rfl

/-- C10: the decoded header is independent of the 2-byte size prefix:
two inputs of equal length that agree after their first 2 bytes decode
identically (both fail the same way or both succeed with the same
header) — the prefix is read and discarded, never validated. -/
theorem decode_ignores_size_field (i1 i2 : List Nat)
    (hlen : i1.length = i2.length) (hdrop : i1.drop 2 = i2.drop 2) :
    headerFromBytes i1 = headerFromBytes i2 := by
  by_cases hc : 2 ≤ i1.length
  · rw [headerFromBytes_eq i1 hc, headerFromBytes_eq i2 (by omega), hdrop]
  · rw [headerFromBytes_short i1 (by omega), headerFromBytes_short i2 (by omega)]

/-- Witness for C10: overwriting the size field of a concrete encoded
header with garbage does not change the decode result. -/
theorem decode_ignores_size_field_witness :
    headerFromBytes (99 :: 88 :: (headerToBytes exampleHeaderNone).drop 2) =
      headerFromBytes (headerToBytes exampleHeaderNone) :=
  decode_ignores_size_field _ _ (by decide) (by decide)

/-- C7: with any signature scheme `(sign, pub, V)` that is correct
(genuine signatures verify) and ideally unforgeable (a signature
verifies only under the signer's public key and only for the signed
message), a BFT header signed over its exact serialized `Common` with
key pair `(sk, pub sk)` verifies; it fails to verify whenever the
serialized `Common` differs from the signed bytes, and whenever a
different public key is substituted for the signer's. -/
theorem bft_verify_soundness
    (SK : Type) (sign : SK → List Nat → List Nat) (pub : SK → List Nat)
    (V : List Nat → List Nat → List Nat → Bool)
    (hcorrect : ∀ sk m, V (pub sk) m (sign sk m) = true)
    (hunforge : ∀ pk m sk' m', V pk m (sign sk' m') = true → pk = pub sk' ∧ m = m')
    (sk : SK) (c : Common) :
    Header.verify_proof V ⟨c, Proof.bft ⟨pub sk, sign sk (commonSerialize c [])⟩⟩ = true ∧
    (∀ c' : Common, commonSerialize c' [] ≠ commonSerialize c [] →
      Header.verify_proof V
        ⟨c', Proof.bft ⟨pub sk, sign sk (commonSerialize c [])⟩⟩ = false) ∧
    (∀ pk' : List Nat, pk' ≠ pub sk →
      Header.verify_proof V
        ⟨c, Proof.bft ⟨pk', sign sk (commonSerialize c [])⟩⟩ = false) := by
  refine ⟨?_, ?_, ?_⟩
  · simp [Header.verify_proof, serialize_and_verify, hcorrect]
  · intro c' hne
    by_contra hcon
    simp only [Header.verify_proof, serialize_and_verify,
      Bool.not_eq_false] at hcon
    exact hne (hunforge _ _ _ _ hcon).2
  · intro pk' hne
    by_contra hcon
    simp only [Header.verify_proof, serialize_and_verify,
      Bool.not_eq_false] at hcon
    exact hne (hunforge _ _ _ _ hcon).1

/-- Toy deterministic signature scheme used to witness C7: signing
prepends the secret key to the message; verification recomputes it. -/
def toySign (sk : Nat) (m : List Nat) : List Nat := sk :: m

/-- Public key of the toy scheme. -/
def toyPub (sk : Nat) : List Nat := [sk]

/-- Verifier of the toy scheme. -/
def toyVerify (pk m s : List Nat) : Bool :=
  match s with
  | [] => false
  | a :: m' => decide (pk = [a] ∧ m' = m)

/-- Witness for C7: the positive branch at a concrete key and `Common`,
via the soundness theorem instantiated with the toy scheme. -/
theorem bft_verify_soundness_witness :
    Header.verify_proof toyVerify
      ⟨⟨1, ⟨0, 0⟩, 0, List.replicate 32 0, List.replicate 32 0⟩,
        Proof.bft ⟨toyPub 5,
          toySign 5 (commonSerialize
            ⟨1, ⟨0, 0⟩, 0, List.replicate 32 0, List.replicate 32 0⟩ [])⟩⟩ = true :=
  (bft_verify_soundness Nat toySign toyPub toyVerify
    (fun sk m => by simp [toyVerify, toySign, toyPub])
    (fun pk m sk' m' hv => by
      simp only [toyVerify, toySign, decide_eq_true_eq] at hv
      exact ⟨by simp [toyPub, hv.1], hv.2.symm⟩)
    5 ⟨1, ⟨0, 0⟩, 0, List.replicate 32 0, List.replicate 32 0⟩).1

/-- C8: serializing a `Common` onto an empty buffer produces exactly,
in order: the 2-byte big-endian `block_version` (`u16be`), the 4-byte
big-endian `block_content_size` (`u32be`), the 4-byte big-endian
`epoch`, the 4-byte big-endian `slot_id`, the raw digest bytes of
`block_content_hash`, then the raw digest bytes of `block_parent_hash`. -/
theorem common_serialize_layout (c : Common) :
    commonSerialize c [] =
      u16be c.block_version ++ u32be c.block_content_size ++
      u32be c.block_date.epoch ++ u32be c.block_date.slot_id ++
      c.block_content_hash ++ c.block_parent_hash := by
  simp [commonSerialize_eq, commonBytes]

end HeaderSpec
